import Mathlib

set_option maxRecDepth 4000

/-!
Verification development for the polarized-target simulation repository
(`old_sim.c`, `sim.c`, `serial.c`, `script.c`, `helper.c`).

The development shallowly embeds the parts of the program the claims are
about:

* the byte-level wire codec of `serial.c` (32-bit integers and 32-bit
  float bit patterns, transmitted most-significant byte first);
* the legacy physics engine of `old_sim.c` (Model A) as a state record
  over the reals, with `update_pol`, `update`, `run_until`, `trip`,
  `anneal`, `beam_on`, `beam_off`, `reset_steady_state`;
* the command interpreter of `old_sim.c` (the `init`/`done` block state
  machine and the per-command dispatch of `main`);
* the serial protocol dispatchers (`process_command`) of both
  `old_sim.c` and `sim.c`;
* the rewritten physics engine of `sim.c` (Model B) and its batch-mode
  `run_until` telemetry loop.

C `double` arithmetic is modelled by real arithmetic (`ℝ`, with
`Real.exp` for `exp` and `|·|` for `fabs`); machine integers are
modelled by `ℕ`/`ℤ` with explicit reduction mod 2^32 where the program
relies on 32-bit wraparound.  The pseudo-random source (`rand`) is
modelled by an explicit oracle argument supplying, for each simulation
step, the drawn fluctuation fraction and sign.  Serial-off ("batch")
mode is the mode embedded for the engine-level operations, matching the
deterministic script runs the claims quantify over.
-/

namespace Serial

/-! ### Wire codec (`serial.c`)

`serial_tx_int32` sends the four bytes of the 32-bit two's-complement
object representation most-significant byte first
(`for (i = 3; i >= 0; i--) serial_tx_byte(port, valueBytes[i]);`).
`serial_rx_int32` reads four bytes `b1 b2 b3 b4` and reassembles them in
the order `{b4, b3, b2, b1}` as the object representation
(little-endian host, as on the target platform).  Floats are handled
identically at the level of their 4-byte object representation, so they
are modelled here by their 32-bit bit patterns. -/

/-- Byte `i` of the little-endian object representation of `n`. -/
def byteOf (n i : ℕ) : ℕ := n / 256 ^ i % 256

/-- `serial_tx_int32`: send the 4 bytes of `v`, MSB first.
The two's-complement pattern of `v` is `v mod 2^32`. -/
def serial_tx_int32 (v : ℤ) : List ℕ :=
  let n := (v % 4294967296).toNat
  [byteOf n 3, byteOf n 2, byteOf n 1, byteOf n 0]

/-- Reinterpret a 32-bit pattern as a signed 32-bit integer. -/
def toSigned32 (n : ℕ) : ℤ :=
  if n < 2147483648 then (n : ℤ) else (n : ℤ) - 4294967296

/-- `serial_rx_int32`: block for 4 bytes `b1 b2 b3 b4`, reassemble them as
the object representation `{b4, b3, b2, b1}` and reinterpret as `int32_t`.
`none` models a link that never delivers the 4 bytes (the C call blocks). -/
def serial_rx_int32 : List ℕ → Option (ℤ × List ℕ)
  | b1 :: b2 :: b3 :: b4 :: rest =>
      some (toSigned32 (b4 + 256 * b3 + 65536 * b2 + 16777216 * b1), rest)
  | _ => none

/-- `serial_tx_float`: send the 4 bytes of the float's object
representation, MSB first.  The float is modelled by its 32-bit bit
pattern `p < 2^32`. -/
def serial_tx_float (p : ℕ) : List ℕ :=
  [byteOf p 3, byteOf p 2, byteOf p 1, byteOf p 0]

/-- `serial_rx_float`: block for 4 bytes and reassemble the float's object
representation `{b4, b3, b2, b1}`; returned as the 32-bit bit pattern. -/
def serial_rx_float : List ℕ → Option (ℕ × List ℕ)
  | b1 :: b2 :: b3 :: b4 :: rest =>
      some (b4 + 256 * b3 + 65536 * b2 + 16777216 * b1, rest)
  | _ => none

end Serial

namespace OldSim

/-! ### Legacy physics engine (`old_sim.c`, "Model A")

The engine state collects the global simulation variables of
`old_sim.c`.  Constants of the source: `POS_NEG_DIFFERENTIATOR = 140.3`,
`MAX_DOSE_RATE = 0.0002`, `CDOSE_THRESHOLD = {0.0, 0.3, 1.2}`,
`critical_dose = {1.0, 4.1, 30.0}`, `DELTA_T = 1.0`, `N_ITER = 2000`,
`k_max = 0.0025`, `freq_range = 0.05`.

Batch mode (`serial off`) is embedded: `update` emits its telemetry row
and computes `pol_rate` itself, and `run_until` advances on every loop
iteration.  The thermal-fluctuation draw of `update` (`rand_int`) is
supplied by an oracle `R : ℕ → ℝ × Bool` giving, per step, the fraction
`percent` and whether the perturbation is added or subtracted. -/

structure AState where
  simTime : ℝ              -- sim_time
  freq : ℝ
  field : ℝ
  temp : ℝ
  pol : ℝ
  polRate : ℝ              -- pol_rate
  steadyState : ℝ          -- steady_state
  oldSteadyState : ℝ       -- old_steady_state
  maxSteadyState : ℝ       -- max_steady_state
  maxPolRate : ℝ           -- max_pol_rate
  kVal : ℝ                 -- k_val
  dose : ℝ
  doseRate : ℝ             -- dose_rate
  lastAnnealDose : ℝ       -- last_anneal_dose
  nAnneals : ℕ             -- n_anneals
  tripping : Bool
  randomnessOn : Bool      -- randomness_on
  followFreq : Bool        -- follow_freq
  direction : ℝ

/-- `MAX_DOSE_RATE` (in 1e15 electrons per cm^2 per second). -/
noncomputable def MAX_DOSE_RATE : ℝ := 0.0002

/-- Initial values of the globals of `old_sim.c` (uninitialised C globals
such as `k_val` are zero-initialised). -/
noncomputable def initState : AState where
  simTime := 0
  freq := 140.145
  field := 5.0
  temp := 1.0
  pol := 0
  polRate := 0
  steadyState := 0.95
  oldSteadyState := 0
  maxSteadyState := 0.95
  maxPolRate := 0.001314
  kVal := 0
  dose := 0
  doseRate := 0
  lastAnnealDose := 0
  nAnneals := 0
  tripping := false
  randomnessOn := true
  followFreq := false
  direction := 99

/-- `optimal_freq_pos()`: `(140.1 + 0.045*exp(-0.38*dose)) * 5.0 / field`. -/
noncomputable def optimal_freq_pos (s : AState) : ℝ :=
  (140.1 + 0.045 * Real.exp (-0.38 * s.dose)) * 5.0 / s.field

/-- `optimal_freq_neg()`: `(140.535 - 0.065*exp(-3.8*dose)) * 5.0 / field`. -/
noncomputable def optimal_freq_neg (s : AState) : ℝ :=
  (140.535 - 0.065 * Real.exp (-3.8 * s.dose)) * 5.0 / s.field

/-- `deviation_increasing(freq_diff)`. -/
noncomputable def deviation_increasing (freq_diff : ℝ) : ℝ :=
  1 / (1 + 30000.0 * freq_diff * freq_diff) - 0.05

/-- `deviation_decreasing(freq_diff)`. -/
noncomputable def deviation_decreasing (freq_diff : ℝ) : ℝ :=
  1 / (1 + 30000.0 * (freq_diff - 0.025) * (freq_diff - 0.025)) - 0.05

/-- The critical dose selected by `update_steady_state` from the dose
accumulated since the last anneal. -/
noncomputable def critDose (s : AState) : ℝ :=
  if s.dose - s.lastAnnealDose > 1.2 then 30.0
  else if s.dose - s.lastAnnealDose > 0.3 then 4.1
  else 1.0

/-- `update_steady_state(delta_t)`:
`steady_state *= exp(-delta_dose / crit_dose)` with
`delta_dose = delta_t * dose_rate`. -/
noncomputable def update_steady_state (delta_t : ℝ) (s : AState) : AState :=
  { s with steadyState := s.steadyState * Real.exp (-(delta_t * s.doseRate) / critDose s) }

/-- `get_steady_state(deviation)`: reads the (already updated) global
`steady_state`. -/
noncomputable def get_steady_state (s : AState) (deviation : ℝ) : ℝ :=
  s.steadyState - 0.05 * (0.95 - |deviation|) / 0.95

/-- The body of `update_pol` after `update_steady_state`: computes the
triple (`new_pol`, `k_val`, possibly re-followed `freq`) exactly as the
two branches (negative / positive polarization) of the source do. -/
noncomputable def polBranch (delta_t : ℝ) (s1 : AState) : ℝ × ℝ × ℝ :=
  let k_max : ℝ := 0.0025
  let freq_range : ℝ := 0.05
  if s1.freq > 140.3 then
    -- NEGATIVE polarization
    let ideal := optimal_freq_neg s1
    let f := if s1.followFreq then optimal_freq_neg s1 else s1.freq
    let percent_ideal_neg := 1 - |ideal - f| / freq_range
    if percent_ideal_neg ≥ 0.500 then
      let dev := deviation_increasing (ideal - f)
      let kv := k_max * dev
      (-(get_steady_state s1 dev - (get_steady_state s1 dev - s1.pol) * Real.exp (-kv * delta_t)),
       kv, f)
    else
      let kv0 := k_max * (1 - deviation_decreasing (ideal - f))
      let kv := if kv0 > k_max then k_max else kv0
      (-(0 + s1.pol * Real.exp (-kv * delta_t)), kv, f)
  else
    -- POSITIVE polarization
    let ideal := optimal_freq_pos s1
    let f := if s1.followFreq then optimal_freq_pos s1 else s1.freq
    let percent_ideal_pos := 1 - |ideal - f| / freq_range
    if percent_ideal_pos ≥ 0.500 then
      let dev := deviation_increasing (ideal - f)
      let kv := k_max * dev
      (get_steady_state s1 dev - |get_steady_state s1 dev - s1.pol| * Real.exp (-kv * delta_t),
       kv, f)
    else
      let kv0 := k_max * (1 - deviation_decreasing (ideal - f))
      let kv := if kv0 > k_max then k_max else kv0
      (0 + s1.pol * Real.exp (-kv * delta_t), kv, f)

/-- `update_pol(delta_t)`: update the steady state, compute the new
polarization / rate constant (and possibly follow the ideal frequency),
then `dose += dose_rate * delta_t`. -/
noncomputable def update_pol (delta_t : ℝ) (s : AState) : AState :=
  let s1 := update_steady_state delta_t s
  let pkf := polBranch delta_t s1
  { s1 with pol := pkf.1, kVal := pkf.2.1, freq := pkf.2.2,
            dose := s1.dose + s1.doseRate * delta_t }

/-- `update()` in batch mode: one `DELTA_T = 1` step.  Emitting the
telemetry row is modelled separately (`runStepsRows`); here the state
effect: `sim_time += DELTA_T`, `N_ITER = 2000` sub-iterations of
`update_pol(DELTA_T/N_ITER)`, batch `pol_rate` recomputation, then the
optional thermal fluctuation with oracle draw `r = (percent, add?)`. -/
noncomputable def polLoop (s : AState) : AState :=
  (update_pol (1 / 2000))^[2000] s

noncomputable def update (r : ℝ × Bool) (s : AState) : AState :=
  let old_pol := s.pol
  let s1 : AState := { s with simTime := s.simTime + 1 }
  let s2 := polLoop s1
  let s3 : AState := { s2 with polRate := (s2.pol - old_pol) / 1 }
  if s3.randomnessOn then
    let percent := r.1
    let newpol := if r.2 then s3.pol + s3.pol * percent else s3.pol - s3.pol * percent
    if |newpol| < (1 + percent) * s3.maxSteadyState then { s3 with pol := newpol } else s3
  else s3

/-- `n` iterations of `update`, consuming the oracle in order. -/
noncomputable def runSteps (R : ℕ → ℝ × Bool) : ℕ → AState → AState
  | 0, s => s
  | n + 1, s => runSteps (fun i => R (i + 1)) n (update (R 0) s)

/-- `run_until(new_time)` in batch mode: the `while (sim_time < new_time)`
loop runs `update` exactly `⌈new_time - sim_time⌉₊` times, since each
`update` advances `sim_time` by exactly `DELTA_T = 1`. -/
noncomputable def run_until (R : ℕ → ℝ × Bool) (new_time : ℝ) (s : AState) : AState :=
  runSteps R ⌈new_time - s.simTime⌉₊ s

/-- `beam_on(rate)`. -/
noncomputable def beam_on (rate : ℝ) (s : AState) : AState :=
  { s with doseRate := rate }

/-- `beam_off()`. -/
noncomputable def beam_off (s : AState) : AState :=
  { s with doseRate := 0 }

/-- `reset_steady_state()`:
`steady_state = max_steady_state*exp(-0.4471*(temp - 1))`, clamped to 1. -/
noncomputable def reset_steady_state (s : AState) : AState :=
  let v := s.maxSteadyState * Real.exp (-0.4471 * (s.temp - 1))
  { s with steadyState := if v > 1.0 then 1.0 else v }

/-- The `trip` command branch of `main`: beam off, boost the steady state
(clamped) and `max_pol_rate`, run half the duration, beam back on,
restore, run the second half. -/
noncomputable def trip (R : ℕ → ℝ × Bool) (in_time : ℝ) (s : AState) : AState :=
  let s1 := beam_off s
  let s2 : AState := { s1 with tripping := true, oldSteadyState := s1.steadyState,
                               steadyState := s1.steadyState * 1.2,
                               maxPolRate := s1.maxPolRate * 10 }
  let s3 := if s2.steadyState > s2.maxSteadyState
            then { s2 with steadyState := s2.maxSteadyState } else s2
  let s4 := run_until R (s3.simTime + in_time / 2) s3
  let s5 : AState := { beam_on MAX_DOSE_RATE s4 with steadyState := s4.oldSteadyState,
                                                     maxPolRate := s4.maxPolRate / 10 }
  let s6 := run_until (fun i => R (⌈in_time / 2⌉₊ + i)) (s5.simTime + in_time / 2) s5
  { s6 with tripping := false }

/-- `anneal(annl_time, temp)` in batch mode.  The `temp` parameter shadows
the global and the body only increments this local copy, so it is unused.
The loop advances `sim_time` in `DELTA_T = 1` steps until `annl_time +
sim_time(entry)` is reached (`⌈annl_time⌉₊` iterations), holding the
reported polarization at zero (restored afterwards, so `pol` is net
unchanged) and writing `pol_rate = 0` rows; then
`last_anneal_dose = dose` and `reset_steady_state()`. -/
noncomputable def anneal (annl_time tempArg : ℝ) (s : AState) : AState :=
  let time_lim := annl_time + s.simTime
  let old_pol := s.pol
  let n := ⌈time_lim - s.simTime⌉₊
  let s1 : AState := { s with pol := 0 }
  let s2 : AState := { s1 with simTime := s1.simTime + n,
                               polRate := if n = 0 then s1.polRate else 0 }
  let s3 : AState := { s2 with pol := old_pol }
  let s4 : AState := { s3 with lastAnnealDose := s3.dose }
  reset_steady_state s4

end OldSim

namespace OldSim

/-- The engine-mutating operations of the interpreter loop of `old_sim.c`
(each constructor corresponds to one command branch of `main`, plus a
single simulation step as performed inside `run_until`). -/
inductive Op where
  | tempSet (v : ℝ)           -- "temp <v>": set temperature, reset_steady_state()
  | sdstSet (v : ℝ)           -- "sdst <v>": max_steady_state = v; steady_state = v
  | mfldSet (v : ℝ)           -- "mfld <v>"
  | freqSet (v : ℝ)           -- "freq <v>"
  | beamSet (onFlag : Bool)   -- "beam on" / "beam off"
  | timeRun (t : ℝ)           -- "time <t>": run_until(t)
  | tripRun (t : ℝ)           -- "trip <t>"
  | annealRun (d t : ℝ)       -- "annl <d> <t>"
  | stepRun (r : ℝ × Bool)    -- one update() step

/-- Apply one operation to the engine state. -/
noncomputable def applyOp (R : ℕ → ℝ × Bool) : Op → AState → AState
  | .tempSet v, s => reset_steady_state { s with temp := v }
  | .sdstSet v, s => { s with maxSteadyState := v, steadyState := v }
  | .mfldSet v, s => { s with field := v }
  | .freqSet v, s => { s with freq := v }
  | .beamSet b, s => if b then beam_on MAX_DOSE_RATE s else beam_off s
  | .timeRun t, s => run_until R t s
  | .tripRun t, s => trip R t s
  | .annealRun d t, s => anneal d t s
  | .stepRun r, s => update r s

/-- The steady-state invariant, with the side conditions under which the
code maintains it: a non-negative ceiling, a non-negative dose rate, and
a temperature of at least 1 K. -/
def Inv (s : AState) : Prop :=
  s.steadyState ≤ s.maxSteadyState ∧ 0 ≤ s.maxSteadyState ∧
  0 ≤ s.doseRate ∧ 1 ≤ s.temp

/-- The operation preconditions forced by the counterexample: `temp`
must set a temperature of at least 1 K and `sdst` a non-negative
ceiling. -/
def OpOK : Op → Prop
  | .tempSet v => 1 ≤ v
  | .sdstSet v => 0 ≤ v
  | _ => True

end OldSim

namespace OldSim

/-- The fixed oracle used for concrete runs: every thermal-fluctuation
draw is `percent = 0`, subtracting. -/
noncomputable def R0 : ℕ → ℝ × Bool := fun _ => (0, false)

end OldSim

namespace OldSim

/-! ### Script interpreter of `old_sim.c` (`main` command loop)

A parsed script line (opcode plus parsed arguments).  `beamArg` /
`randArg` / `fllwArg` keep the raw string argument because the source
compares it against `"on"` / `"off"` and treats anything else as
invalid (for `fllw`: as a silent no-op). -/

inductive Cmd where
  | initCmd                          -- "init"
  | doneCmd                          -- "done"
  | mfldCmd (v : ℝ)                  -- "mfld <v>"
  | sdstCmd (v : ℝ)                  -- "sdst <v>"
  | tempCmd (v : ℝ)                  -- "temp <v>"
  | freqCmd (v : ℝ)                  -- "freq <v>"
  | timeCmd (v : ℝ) (rel : Bool)     -- "time <v>" / "time +<v>"
  | beamCmd (arg : String)           -- "beam on|off"
  | tripCmd (v : ℝ)                  -- "trip <v>"
  | annlCmd (d t : ℝ)                -- "annl <d> <t>"
  | randCmd (arg : String)           -- "rand on|off"
  | fllwCmd (arg : String)           -- "fllw on|off"
  | unknownCmd (name : String)       -- anything else

/-- Interpreter block state: whether we are inside an `init` block and
whether an `init` block was already completed. -/
structure IState where
  inInit : Bool
  didInit : Bool

/-- Outcome of executing one command: continue with new state, report an
invalid command (diagnostic names the offending opcode, states
unchanged), or abort the whole run with the given exit code. -/
inductive Outcome where
  | next (i : IState) (s : AState)
  | invalidCmd (name : String) (i : IState) (s : AState)
  | fatal (code : ℕ)

/-- One iteration of the `do { ... } while (script_readline())` command
loop of `main` (batch mode, `serial_on == false`), including the
`INVALID_COMMAND` `goto` target. -/
noncomputable def step (R : ℕ → ℝ × Bool) (i : IState) (s : AState) : Cmd → Outcome
  | .initCmd =>
      if i.didInit then .fatal 1
      else if i.inInit then .invalidCmd ("init") i s
      else .next ⟨true, i.didInit⟩ s
  | .doneCmd =>
      if !i.inInit then .invalidCmd ("done") i s
      else .next ⟨false, true⟩ s
  | .mfldCmd v =>
      if !i.inInit then .invalidCmd ("mfld") i s
      else .next i { s with field := v }
  | .sdstCmd v =>
      if !i.inInit then .invalidCmd ("sdst") i s
      else .next i { s with maxSteadyState := v, steadyState := v }
  | .tempCmd v =>
      if !i.inInit then .invalidCmd ("temp") i s
      else .next i (reset_steady_state { s with temp := v })
  | .freqCmd v => .next i { s with freq := v }
  | .timeCmd v rel =>
      if i.inInit then .invalidCmd ("time") i s
      else .next i (run_until R (if rel then v + s.simTime else v) s)
  | .beamCmd arg =>
      if arg = "on" then .next i (beam_on MAX_DOSE_RATE s)
      else if arg = "off" then .next i (beam_off s)
      else .invalidCmd ("beam") i s
  | .tripCmd v => .next i (trip R v s)
  | .annlCmd d t => .next i (anneal d t s)
  | .randCmd arg =>
      if !i.inInit then .invalidCmd ("rand") i s
      else if arg = "on" then .next i { s with randomnessOn := true }
      else if arg = "off" then .next i { s with randomnessOn := false }
      else .invalidCmd ("rand") i s
  | .fllwCmd arg =>
      -- batch mode: serial is off, so fllw is accepted; an argument other
      -- than on/off silently does nothing
      if arg = "on" then .next i { s with followFreq := true }
      else if arg = "off" then .next i { s with followFreq := false }
      else .next i s
  | .unknownCmd name => .invalidCmd name i s

end OldSim

namespace OldSim

/-! ### Telemetry and protocol dispatcher of `old_sim.c` -/

/-- One telemetry row, as written by `output_data()`:
`sim_time freq 100*pol dose 100*pol_rate optimal_freq_pos() direction k_val`. -/
structure RowA where
  time : ℝ
  freq : ℝ
  pol100 : ℝ
  dose : ℝ
  polRate100 : ℝ
  optFreqPos : ℝ
  direction : ℝ
  kVal : ℝ

/-- `output_data()`: snapshot the current state into a row. -/
noncomputable def output_row (s : AState) : RowA :=
  ⟨s.simTime, s.freq, 100 * s.pol, s.dose, 100 * s.polRate, optimal_freq_pos s,
   s.direction, s.kVal⟩

/-- One dispatch of the `switch` in `process_command()` for a control
byte already read.  Returns the new state, the remaining input bytes and
the emitted telemetry rows; `none` models a link that never delivers a
required multi-byte field (the C reads block forever).  Bytes written to
the link (confirmation, event number, polarization) do not affect engine
state or telemetry and are not modelled.  `fdec` is the IEEE-754
interpretation of a 32-bit float pattern, kept abstract. -/
noncomputable def process_one (fdec : ℕ → ℝ) (c : ℕ) (input : List ℕ) (s : AState) :
    Option (AState × List ℕ × List RowA) :=
  if c = 0x11 then          -- readFreq
    match Serial.serial_rx_int32 input with
    | some (v, rest) => some ({ s with freq := (v : ℝ) / 1000 }, rest, [])
    | none => none
  else if c = 0x33 then     -- sendConfirmation
    some (s, input, [])
  else if c = 0x77 then     -- writeEventNum
    some (s, input, [])
  else if c = 0xBB then     -- readPolRate
    match Serial.serial_rx_float input with
    | some (p, rest) => some ({ s with polRate := fdec p }, rest, [])
    | none => none
  else if c = 0x88 then     -- readDirection, then output_data()
    match Serial.serial_rx_int32 input with
    | some (v, rest) =>
        some ({ s with direction := (v : ℝ) }, rest,
              [output_row { s with direction := (v : ℝ) }])
    | none => none
  else if c = 0xFF then     -- writePol
    some (s, input, [])
  else                      -- no default case: unknown bytes do nothing
    some (s, input, [])

end OldSim

namespace OldSim

/-- The telemetry rows emitted by `n` iterations of the legacy batch
loop: `update()` calls `output_data()` first, before `sim_time +=
DELTA_T`. -/
noncomputable def runStepsRows (R : ℕ → ℝ × Bool) : ℕ → AState → List RowA
  | 0, _ => []
  | n + 1, s => output_row s :: runStepsRows (fun i => R (i + 1)) n (update (R 0) s)

/-- The rows written by the legacy batch `run_until(new_time)`. -/
noncomputable def run_until_rows (R : ℕ → ℝ × Bool) (new_time : ℝ) (s : AState) :
    List RowA :=
  runStepsRows R ⌈new_time - s.simTime⌉₊ s

/-- The legacy engine state for the same scenario: `temp 1.0` outside an
init block is an invalid command and changes nothing (the default
temperature is already 1.0), `freq 140.10` sets the frequency, and the
scenario stipulates randomness disabled. -/
noncomputable def scenA : AState :=
  { initState with freq := 140.10, randomnessOn := false }

end OldSim

namespace NewSim

/-! ### Rewritten engine (`sim.c`, "Model B")

State record for the globals of `sim.c`.  Note the field-scaling of the
ideal frequencies here is `* field / 5.0` (the legacy model uses
`* 5.0 / field`). -/

structure BState where
  simTime : ℝ              -- sim_time
  freq : ℝ
  field : ℝ
  temp : ℝ
  pol : ℝ
  aParam : ℝ               -- a_param
  polRate : ℝ              -- pol_rate
  dose : ℝ
  doseRate : ℝ             -- dose_rate
  lastAnnealDose : ℝ       -- last_anneal_dose
  nAnneals : ℕ             -- n_anneals
  direction : ℤ

/-- Initial global values of `sim.c` (uninitialised globals are zero). -/
noncomputable def initB : BState where
  simTime := 0
  freq := 140.145
  field := 5.0
  temp := 1.0
  pol := 0
  aParam := 1.0
  polRate := 0
  dose := 0
  doseRate := 0
  lastAnnealDose := 0
  nAnneals := 0
  direction := 0

/-- `optimal_freq_pos()`: `(140.1 + 0.045*exp(-0.38*dose)) * field/5.0`. -/
noncomputable def optimal_freq_pos (s : BState) : ℝ :=
  (140.1 + 0.045 * Real.exp (-0.38 * s.dose)) * s.field / 5.0

/-- `optimal_freq_neg()`: `(140.535 - 0.065*exp(-3.8*dose)) * field/5.0`. -/
noncomputable def optimal_freq_neg (s : BState) : ℝ :=
  (140.535 - 0.065 * Real.exp (-3.8 * s.dose)) * s.field / 5.0

/-- `get_steady_state()`: difference of two Gaussians in frequency. -/
noncomputable def get_steady_state (s : BState) : ℝ :=
  Real.exp (-(s.freq - optimal_freq_pos s) * (s.freq - optimal_freq_pos s) / 0.02) -
    Real.exp (-(s.freq - optimal_freq_neg s) * (s.freq - optimal_freq_neg s) / 0.02)

/-- `get_lambda()`: Gaussian centred at the midpoint of the ideal
frequencies. -/
noncomputable def get_lambda (s : BState) : ℝ :=
  let m := 0.5 * (optimal_freq_pos s + optimal_freq_neg s)
  0.005 * Real.exp (-(s.freq - m) * (s.freq - m) / 0.045)

/-- `update_a_param()`. -/
noncomputable def update_a_param (s : BState) : BState :=
  { s with aParam := Real.exp (get_lambda s * s.simTime) * (get_steady_state s - s.pol) }

/-- `update_pol()`: `pol = P_inf - A*exp(-lambda*t)`. -/
noncomputable def update_pol (s : BState) : BState :=
  { s with pol := get_steady_state s - s.aParam * Real.exp (-(get_lambda s) * s.simTime) }

/-- `set_freq(frequency)`. -/
noncomputable def set_freq (frequency : ℝ) (s : BState) : BState :=
  update_a_param { s with freq := frequency }

/-- `update_sim()` in batch mode: `sim_time += DELTA_T`, `update_pol()`,
then recompute `pol_rate` (no serial to supply it). -/
noncomputable def update_sim (s : BState) : BState :=
  let old_pol := s.pol
  let s1 : BState := { s with simTime := s.simTime + 1 }
  let s2 := update_pol s1
  { s2 with polRate := (s2.pol - old_pol) / 1 }

/-- `sim_init()` in batch mode: `set_freq(freq); update_pol();`. -/
noncomputable def sim_init (s : BState) : BState :=
  update_pol (set_freq s.freq s)

/-- One telemetry row of `sim.c`'s `output_data()`:
`sim_time freq 100*pol 100*get_steady_state() get_lambda() 100*pol_rate`
followed by the controller direction, or the literal `N/A` placeholder in
batch mode (modelled by `none`). -/
structure RowB where
  time : ℝ
  freq : ℝ
  pol100 : ℝ
  steadyState100 : ℝ
  lambda : ℝ
  polRate100 : ℝ
  direction : Option ℤ

/-- `output_data()` in serial mode. -/
noncomputable def output_row_serial (s : BState) : RowB :=
  ⟨s.simTime, s.freq, 100 * s.pol, 100 * get_steady_state s, get_lambda s,
   100 * s.polRate, some s.direction⟩

/-- `output_data()` in batch mode (`N/A` direction column). -/
noncomputable def output_row_batch (s : BState) : RowB :=
  ⟨s.simTime, s.freq, 100 * s.pol, 100 * get_steady_state s, get_lambda s,
   100 * s.polRate, none⟩

/-- `rx_string()`: consume bytes up to and including the 0 terminator;
`none` if the terminator never arrives (the C read blocks forever). -/
def dropString : List ℕ → Option (List ℕ)
  | [] => none
  | b :: rest => if b = 0 then some rest else dropString rest

/-- One dispatch of the `switch` in `sim.c`'s `process_command()` for a
control byte already read (serial mode).  Same conventions as
`OldSim.process_one`; the `default` arm logs the unknown byte and does
nothing. -/
noncomputable def process_one (fdec : ℕ → ℝ) (c : ℕ) (input : List ℕ) (s : BState) :
    Option (BState × List ℕ × List RowB) :=
  if c = 0x11 then          -- rx_freq
    match Serial.serial_rx_int32 input with
    | some (v, rest) => some ({ s with freq := (v : ℝ) / 1000 }, rest, [])
    | none => none
  else if c = 0x33 then     -- tx_confirmation
    some (s, input, [])
  else if c = 0x77 then     -- tx_event_num
    some (s, input, [])
  else if c = 0x88 then     -- rx_direction, then output_data()
    match Serial.serial_rx_int32 input with
    | some (v, rest) =>
        some ({ s with direction := v }, rest,
              [output_row_serial { s with direction := v }])
    | none => none
  else if c = 0xBB then     -- rx_pol_rate
    match Serial.serial_rx_float input with
    | some (p, rest) => some ({ s with polRate := fdec p }, rest, [])
    | none => none
  else if c = 0xEE then     -- rx_string
    match dropString input with
    | some rest => some (s, rest, [])
    | none => none
  else if c = 0xFF then     -- tx_pol
    some (s, input, [])
  else                      -- default: log unknown byte
    some (s, input, [])

end NewSim

namespace NewSim

/-- Number of iterations performed by `run_until(until)` in batch mode:
the `while (sim_time <= until)` loop advances `sim_time` by exactly
`DELTA_T = 1` per iteration. -/
noncomputable def stepsB (untilT : ℝ) (s : BState) : ℕ :=
  if s.simTime ≤ untilT then ⌊untilT - s.simTime⌋₊ + 1 else 0

/-- `run_until(until)` in batch mode (state effect). -/
noncomputable def run_untilB (untilT : ℝ) (s : BState) : BState :=
  update_sim^[stepsB untilT s] s

/-- The telemetry rows emitted by `n` iterations of the batch loop:
`output_data()` runs *before* each `update_sim()`. -/
noncomputable def runRowsB : ℕ → BState → List RowB
  | 0, _ => []
  | n + 1, s => output_row_batch s :: runRowsB n (update_sim s)

/-- A parsed command for the `main` loop of `sim.c`: only `freq` and
`time` are interpreted; any other line (such as `temp 1.0`) matches no
branch and is silently ignored. -/
inductive CmdB where
  | freqB (v : ℝ)
  | timeB (v : ℝ)
  | otherB

/-- One iteration of the command loop of `sim.c` (batch), returning the
new state and the telemetry rows written. -/
noncomputable def stepB : CmdB → BState → BState × List RowB
  | .freqB v, s => (set_freq v s, [])
  | .timeB v, s => (run_untilB v s, runRowsB (stepsB v s) s)
  | .otherB, s => (s, [])

/-! ### End-to-end scenario `["temp 1.0", "freq 140.10", "time 100"]`
(batch mode: `sim_init()` after the script header, then the three
commands; `temp` is not a `sim.c` command and is ignored). -/

/-- State after `sim_init()`. -/
noncomputable def scen0 : BState := sim_init initB

/-- State after the ignored `temp 1.0` line. -/
noncomputable def scen1 : BState := (stepB CmdB.otherB scen0).1

/-- State after `freq 140.10`. -/
noncomputable def scenStar : BState := (stepB (CmdB.freqB 140.10) scen1).1

/-- The telemetry rows written by `time 100`. -/
noncomputable def scenRows : List RowB := (stepB (CmdB.timeB 100) scenStar).2

/-- Polarization after `k` simulation steps of the scenario. -/
noncomputable def scenPol (k : ℕ) : ℝ := (update_sim^[k] scenStar).pol

/-- The model's steady state for the scenario's frequency/temperature. -/
noncomputable def scenSS : ℝ := get_steady_state scenStar

/-- The model's rate constant for the scenario state. -/
noncomputable def lamStar : ℝ := get_lambda scenStar

end NewSim

namespace OldSim

/-- `exp x ≤ 1` for nonpositive `x`. -/
lemma exp_le_one_of_nonpos {x : ℝ} (h : x ≤ 0) : Real.exp x ≤ 1 := by
  calc Real.exp x ≤ Real.exp 0 := Real.exp_le_exp.mpr h
    _ = 1 := Real.exp_zero

lemma critDose_pos (s : AState) : 0 < critDose s := by
  unfold critDose; split_ifs <;> norm_num

/-- A projection that every application of `f` preserves is preserved by
every iterate of `f`. -/
lemma iterate_proj {α β : Type} {f : α → α} (g : α → β) (hf : ∀ s, g (f s) = g s) :
    ∀ (n : ℕ) (s : α), g (f^[n] s) = g s := by
  intro n
  induction n with
  | zero => intro s; rfl
  | succ n ih =>
      intro s
      rw [Function.iterate_succ_apply, ih (f s), hf s]

lemma update_pol_steadyState (delta_t : ℝ) (s : AState) :
    (update_pol delta_t s).steadyState =
      s.steadyState * Real.exp (-(delta_t * s.doseRate) / critDose s) := by
  simp [update_pol, update_steady_state]

lemma update_pol_dose (delta_t : ℝ) (s : AState) :
    (update_pol delta_t s).dose = s.dose + s.doseRate * delta_t := by
  simp [update_pol, update_steady_state]

lemma update_pol_frame (delta_t : ℝ) (s : AState) :
    (update_pol delta_t s).simTime = s.simTime ∧
    (update_pol delta_t s).field = s.field ∧
    (update_pol delta_t s).temp = s.temp ∧
    (update_pol delta_t s).polRate = s.polRate ∧
    (update_pol delta_t s).oldSteadyState = s.oldSteadyState ∧
    (update_pol delta_t s).maxSteadyState = s.maxSteadyState ∧
    (update_pol delta_t s).maxPolRate = s.maxPolRate ∧
    (update_pol delta_t s).doseRate = s.doseRate ∧
    (update_pol delta_t s).lastAnnealDose = s.lastAnnealDose ∧
    (update_pol delta_t s).nAnneals = s.nAnneals ∧
    (update_pol delta_t s).tripping = s.tripping ∧
    (update_pol delta_t s).randomnessOn = s.randomnessOn ∧
    (update_pol delta_t s).followFreq = s.followFreq ∧
    (update_pol delta_t s).direction = s.direction := by
  refine ⟨?_, ?_, ?_, ?_, ?_, ?_, ?_, ?_, ?_, ?_, ?_, ?_, ?_, ?_⟩ <;>
    simp [update_pol, update_steady_state]

lemma polBranch_freq (delta_t : ℝ) (s : AState) (h : s.followFreq = false) :
    (polBranch delta_t s).2.2 = s.freq := by
  simp only [polBranch, h]
  split_ifs <;> simp_all

lemma update_pol_freq (delta_t : ℝ) (s : AState) (h : s.followFreq = false) :
    (update_pol delta_t s).freq = s.freq := by
  have h1 : (update_steady_state delta_t s).followFreq = false := by
    simpa [update_steady_state] using h
  have h2 := polBranch_freq delta_t (update_steady_state delta_t s) h1
  simp only [update_pol]
  rw [h2]
  simp [update_steady_state]

lemma iter_update_pol_doseRate (delta_t : ℝ) (n : ℕ) (s : AState) :
    ((update_pol delta_t)^[n] s).doseRate = s.doseRate :=
  iterate_proj (fun t => t.doseRate) (fun t => (update_pol_frame delta_t t).2.2.2.2.2.2.2.1) n s

lemma iter_update_pol_followFreq (delta_t : ℝ) (n : ℕ) (s : AState) :
    ((update_pol delta_t)^[n] s).followFreq = s.followFreq :=
  iterate_proj (fun t => t.followFreq)
    (fun t => (update_pol_frame delta_t t).2.2.2.2.2.2.2.2.2.2.2.2.1) n s

lemma iter_update_pol_simTime (delta_t : ℝ) (n : ℕ) (s : AState) :
    ((update_pol delta_t)^[n] s).simTime = s.simTime :=
  iterate_proj (fun t => t.simTime) (fun t => (update_pol_frame delta_t t).1) n s

lemma iter_update_pol_dose (delta_t : ℝ) (n : ℕ) (s : AState) :
    ((update_pol delta_t)^[n] s).dose = s.dose + n * (s.doseRate * delta_t) := by
  induction n generalizing s with
  | zero => simp
  | succ n ih =>
      rw [Function.iterate_succ_apply, ih (update_pol delta_t s), update_pol_dose,
        (update_pol_frame delta_t s).2.2.2.2.2.2.2.1]
      push_cast
      ring

lemma iter_update_pol_freq (delta_t : ℝ) (n : ℕ) (s : AState) (h : s.followFreq = false) :
    ((update_pol delta_t)^[n] s).freq = s.freq := by
  induction n generalizing s with
  | zero => rfl
  | succ n ih =>
      rw [Function.iterate_succ_apply,
        ih (update_pol delta_t s)
          (by rw [(update_pol_frame delta_t s).2.2.2.2.2.2.2.2.2.2.2.2.1]; exact h),
        update_pol_freq delta_t s h]

lemma iter_update_pol_steadyState (delta_t : ℝ) (n : ℕ) (s : AState)
    (hd : 0 ≤ delta_t) (hr : 0 ≤ s.doseRate) :
    ∃ F : ℝ, 0 < F ∧ F ≤ 1 ∧
      ((update_pol delta_t)^[n] s).steadyState = s.steadyState * F := by
  induction n generalizing s with
  | zero => exact ⟨1, one_pos, le_refl 1, (mul_one _).symm⟩
  | succ n ih =>
      obtain ⟨F, hF0, hF1, hFe⟩ :=
        ih (update_pol delta_t s)
          (by rw [(update_pol_frame delta_t s).2.2.2.2.2.2.2.1]; exact hr)
      set E := Real.exp (-(delta_t * s.doseRate) / critDose s) with hE
      have hE0 : 0 < E := Real.exp_pos _
      have hE1 : E ≤ 1 := by
        apply exp_le_one_of_nonpos
        apply div_nonpos_of_nonpos_of_nonneg
        · simp [mul_nonneg hd hr]
        · exact (critDose_pos s).le
      refine ⟨E * F, mul_pos hE0 hF0, ?_, ?_⟩
      · calc E * F ≤ 1 * 1 := by
              apply mul_le_mul hE1 hF1 hF0.le zero_le_one
          _ = 1 := by norm_num
      · rw [Function.iterate_succ_apply, hFe, update_pol_steadyState]
        ring

lemma polLoop_frame (s : AState) :
    (polLoop s).simTime = s.simTime ∧
    (polLoop s).field = s.field ∧
    (polLoop s).temp = s.temp ∧
    (polLoop s).oldSteadyState = s.oldSteadyState ∧
    (polLoop s).maxSteadyState = s.maxSteadyState ∧
    (polLoop s).maxPolRate = s.maxPolRate ∧
    (polLoop s).doseRate = s.doseRate ∧
    (polLoop s).lastAnnealDose = s.lastAnnealDose ∧
    (polLoop s).nAnneals = s.nAnneals ∧
    (polLoop s).tripping = s.tripping ∧
    (polLoop s).randomnessOn = s.randomnessOn ∧
    (polLoop s).followFreq = s.followFreq ∧
    (polLoop s).direction = s.direction := by
  have h := update_pol_frame (1 / 2000)
  unfold polLoop
  exact ⟨iterate_proj (fun t => t.simTime) (fun t => (h t).1) 2000 s,
    iterate_proj (fun t => t.field) (fun t => (h t).2.1) 2000 s,
    iterate_proj (fun t => t.temp) (fun t => (h t).2.2.1) 2000 s,
    iterate_proj (fun t => t.oldSteadyState) (fun t => (h t).2.2.2.2.1) 2000 s,
    iterate_proj (fun t => t.maxSteadyState) (fun t => (h t).2.2.2.2.2.1) 2000 s,
    iterate_proj (fun t => t.maxPolRate) (fun t => (h t).2.2.2.2.2.2.1) 2000 s,
    iterate_proj (fun t => t.doseRate) (fun t => (h t).2.2.2.2.2.2.2.1) 2000 s,
    iterate_proj (fun t => t.lastAnnealDose) (fun t => (h t).2.2.2.2.2.2.2.2.1) 2000 s,
    iterate_proj (fun t => t.nAnneals) (fun t => (h t).2.2.2.2.2.2.2.2.2.1) 2000 s,
    iterate_proj (fun t => t.tripping) (fun t => (h t).2.2.2.2.2.2.2.2.2.2.1) 2000 s,
    iterate_proj (fun t => t.randomnessOn) (fun t => (h t).2.2.2.2.2.2.2.2.2.2.2.1) 2000 s,
    iterate_proj (fun t => t.followFreq) (fun t => (h t).2.2.2.2.2.2.2.2.2.2.2.2.1) 2000 s,
    iterate_proj (fun t => t.direction) (fun t => (h t).2.2.2.2.2.2.2.2.2.2.2.2.2) 2000 s⟩

lemma polLoop_dose (s : AState) :
    (polLoop s).dose = s.dose + s.doseRate := by
  unfold polLoop
  rw [iter_update_pol_dose]
  push_cast
  ring

lemma polLoop_freq (s : AState) (h : s.followFreq = false) :
    (polLoop s).freq = s.freq := by
  unfold polLoop
  exact iter_update_pol_freq _ _ _ h

lemma polLoop_steadyState (s : AState) (hr : 0 ≤ s.doseRate) :
    ∃ F : ℝ, 0 < F ∧ F ≤ 1 ∧ (polLoop s).steadyState = s.steadyState * F := by
  unfold polLoop
  exact iter_update_pol_steadyState (1 / 2000) 2000 s (by norm_num) hr

attribute [irreducible] polLoop

lemma update_frame (r : ℝ × Bool) (s : AState) :
    (update r s).field = s.field ∧
    (update r s).temp = s.temp ∧
    (update r s).oldSteadyState = s.oldSteadyState ∧
    (update r s).maxSteadyState = s.maxSteadyState ∧
    (update r s).maxPolRate = s.maxPolRate ∧
    (update r s).doseRate = s.doseRate ∧
    (update r s).lastAnnealDose = s.lastAnnealDose ∧
    (update r s).nAnneals = s.nAnneals ∧
    (update r s).tripping = s.tripping ∧
    (update r s).randomnessOn = s.randomnessOn ∧
    (update r s).followFreq = s.followFreq ∧
    (update r s).direction = s.direction := by
  have h := polLoop_frame ({ s with simTime := s.simTime + 1 } : AState)
  refine ⟨?_, ?_, ?_, ?_, ?_, ?_, ?_, ?_, ?_, ?_, ?_, ?_⟩ <;>
    · simp only [update]
      split_ifs <;>
        simp only [h.1, h.2.1, h.2.2.1, h.2.2.2.1, h.2.2.2.2.1, h.2.2.2.2.2.1,
          h.2.2.2.2.2.2.1, h.2.2.2.2.2.2.2.1, h.2.2.2.2.2.2.2.2.1,
          h.2.2.2.2.2.2.2.2.2.1, h.2.2.2.2.2.2.2.2.2.2.1,
          h.2.2.2.2.2.2.2.2.2.2.2.1, h.2.2.2.2.2.2.2.2.2.2.2.2]

lemma update_simTime (r : ℝ × Bool) (s : AState) :
    (update r s).simTime = s.simTime + 1 := by
  have h := (polLoop_frame ({ s with simTime := s.simTime + 1 } : AState)).1
  simp only [update]
  split_ifs <;> simp only [h]

lemma update_dose (r : ℝ × Bool) (s : AState) :
    (update r s).dose = s.dose + s.doseRate := by
  have h := polLoop_dose ({ s with simTime := s.simTime + 1 } : AState)
  simp only [update]
  split_ifs <;> simp only [h]

lemma update_freq (r : ℝ × Bool) (s : AState) (h : s.followFreq = false) :
    (update r s).freq = s.freq := by
  have h1 := polLoop_freq ({ s with simTime := s.simTime + 1 } : AState) h
  simp only [update]
  split_ifs <;> simp only [h1]

lemma update_steadyState (r : ℝ × Bool) (s : AState) (hr : 0 ≤ s.doseRate) :
    ∃ F : ℝ, 0 < F ∧ F ≤ 1 ∧ (update r s).steadyState = s.steadyState * F := by
  obtain ⟨F, hF0, hF1, hFe⟩ :=
    polLoop_steadyState ({ s with simTime := s.simTime + 1 } : AState) hr
  refine ⟨F, hF0, hF1, ?_⟩
  simp only [update]
  split_ifs <;> exact hFe

lemma runSteps_frame : ∀ (n : ℕ) (R : ℕ → ℝ × Bool) (s : AState),
    (runSteps R n s).field = s.field ∧
    (runSteps R n s).temp = s.temp ∧
    (runSteps R n s).oldSteadyState = s.oldSteadyState ∧
    (runSteps R n s).maxSteadyState = s.maxSteadyState ∧
    (runSteps R n s).maxPolRate = s.maxPolRate ∧
    (runSteps R n s).doseRate = s.doseRate ∧
    (runSteps R n s).lastAnnealDose = s.lastAnnealDose ∧
    (runSteps R n s).nAnneals = s.nAnneals ∧
    (runSteps R n s).tripping = s.tripping ∧
    (runSteps R n s).randomnessOn = s.randomnessOn ∧
    (runSteps R n s).followFreq = s.followFreq ∧
    (runSteps R n s).direction = s.direction := by
  intro n
  induction n with
  | zero =>
      intro R s
      exact ⟨rfl, rfl, rfl, rfl, rfl, rfl, rfl, rfl, rfl, rfl, rfl, rfl⟩
  | succ n ih =>
      intro R s
      have hu := update_frame (R 0) s
      have hI := ih (fun i => R (i + 1)) (update (R 0) s)
      exact ⟨hI.1.trans hu.1, hI.2.1.trans hu.2.1, hI.2.2.1.trans hu.2.2.1,
        hI.2.2.2.1.trans hu.2.2.2.1, hI.2.2.2.2.1.trans hu.2.2.2.2.1,
        hI.2.2.2.2.2.1.trans hu.2.2.2.2.2.1, hI.2.2.2.2.2.2.1.trans hu.2.2.2.2.2.2.1,
        hI.2.2.2.2.2.2.2.1.trans hu.2.2.2.2.2.2.2.1,
        hI.2.2.2.2.2.2.2.2.1.trans hu.2.2.2.2.2.2.2.2.1,
        hI.2.2.2.2.2.2.2.2.2.1.trans hu.2.2.2.2.2.2.2.2.2.1,
        hI.2.2.2.2.2.2.2.2.2.2.1.trans hu.2.2.2.2.2.2.2.2.2.2.1,
        hI.2.2.2.2.2.2.2.2.2.2.2.trans hu.2.2.2.2.2.2.2.2.2.2.2⟩

lemma runSteps_simTime : ∀ (n : ℕ) (R : ℕ → ℝ × Bool) (s : AState),
    (runSteps R n s).simTime = s.simTime + n := by
  intro n
  induction n with
  | zero => intro R s; simp [runSteps]
  | succ n ih =>
      intro R s
      have := ih (fun i => R (i + 1)) (update (R 0) s)
      rw [runSteps] at *
      rw [this, update_simTime]
      push_cast
      ring

lemma runSteps_dose : ∀ (n : ℕ) (R : ℕ → ℝ × Bool) (s : AState),
    (runSteps R n s).dose = s.dose + n * s.doseRate := by
  intro n
  induction n with
  | zero => intro R s; simp [runSteps]
  | succ n ih =>
      intro R s
      have := ih (fun i => R (i + 1)) (update (R 0) s)
      rw [runSteps] at *
      rw [this, update_dose, (update_frame (R 0) s).2.2.2.2.2.1]
      push_cast
      ring

lemma runSteps_freq : ∀ (n : ℕ) (R : ℕ → ℝ × Bool) (s : AState),
    s.followFreq = false → (runSteps R n s).freq = s.freq := by
  intro n
  induction n with
  | zero => intro R s _; rfl
  | succ n ih =>
      intro R s h
      have hf : (update (R 0) s).followFreq = false := by
        rw [(update_frame (R 0) s).2.2.2.2.2.2.2.2.2.2.1]; exact h
      rw [runSteps, ih (fun i => R (i + 1)) (update (R 0) s) hf, update_freq (R 0) s h]

lemma runSteps_steadyState : ∀ (n : ℕ) (R : ℕ → ℝ × Bool) (s : AState),
    0 ≤ s.doseRate →
    ∃ F : ℝ, 0 < F ∧ F ≤ 1 ∧ (runSteps R n s).steadyState = s.steadyState * F := by
  intro n
  induction n with
  | zero => intro R s _; exact ⟨1, one_pos, le_refl 1, (mul_one _).symm⟩
  | succ n ih =>
      intro R s hr
      have hr1 : 0 ≤ (update (R 0) s).doseRate := by
        rw [(update_frame (R 0) s).2.2.2.2.2.1]; exact hr
      obtain ⟨F, hF0, hF1, hFe⟩ := ih (fun i => R (i + 1)) (update (R 0) s) hr1
      obtain ⟨E, hE0, hE1, hEe⟩ := update_steadyState (R 0) s hr
      refine ⟨E * F, mul_pos hE0 hF0, ?_, ?_⟩
      · calc E * F ≤ 1 * 1 := mul_le_mul hE1 hF1 hF0.le zero_le_one
          _ = 1 := by norm_num
      · rw [runSteps, hFe, hEe]
        ring

end OldSim

namespace OldSim

lemma runSteps_field (n : ℕ) (R : ℕ → ℝ × Bool) (s : AState) :
    (runSteps R n s).field = s.field := (runSteps_frame n R s).1

lemma runSteps_temp (n : ℕ) (R : ℕ → ℝ × Bool) (s : AState) :
    (runSteps R n s).temp = s.temp := (runSteps_frame n R s).2.1

lemma runSteps_oldSteadyState (n : ℕ) (R : ℕ → ℝ × Bool) (s : AState) :
    (runSteps R n s).oldSteadyState = s.oldSteadyState := (runSteps_frame n R s).2.2.1

lemma runSteps_maxSteadyState (n : ℕ) (R : ℕ → ℝ × Bool) (s : AState) :
    (runSteps R n s).maxSteadyState = s.maxSteadyState := (runSteps_frame n R s).2.2.2.1

lemma runSteps_maxPolRate (n : ℕ) (R : ℕ → ℝ × Bool) (s : AState) :
    (runSteps R n s).maxPolRate = s.maxPolRate := (runSteps_frame n R s).2.2.2.2.1

lemma runSteps_doseRate (n : ℕ) (R : ℕ → ℝ × Bool) (s : AState) :
    (runSteps R n s).doseRate = s.doseRate := (runSteps_frame n R s).2.2.2.2.2.1

lemma runSteps_lastAnnealDose (n : ℕ) (R : ℕ → ℝ × Bool) (s : AState) :
    (runSteps R n s).lastAnnealDose = s.lastAnnealDose := (runSteps_frame n R s).2.2.2.2.2.2.1

lemma runSteps_nAnneals (n : ℕ) (R : ℕ → ℝ × Bool) (s : AState) :
    (runSteps R n s).nAnneals = s.nAnneals := (runSteps_frame n R s).2.2.2.2.2.2.2.1

lemma runSteps_tripping (n : ℕ) (R : ℕ → ℝ × Bool) (s : AState) :
    (runSteps R n s).tripping = s.tripping := (runSteps_frame n R s).2.2.2.2.2.2.2.2.1

lemma runSteps_randomnessOn (n : ℕ) (R : ℕ → ℝ × Bool) (s : AState) :
    (runSteps R n s).randomnessOn = s.randomnessOn := (runSteps_frame n R s).2.2.2.2.2.2.2.2.2.1

lemma runSteps_followFreq (n : ℕ) (R : ℕ → ℝ × Bool) (s : AState) :
    (runSteps R n s).followFreq = s.followFreq := (runSteps_frame n R s).2.2.2.2.2.2.2.2.2.2.1

lemma runSteps_direction (n : ℕ) (R : ℕ → ℝ × Bool) (s : AState) :
    (runSteps R n s).direction = s.direction := (runSteps_frame n R s).2.2.2.2.2.2.2.2.2.2.2

/-- `trip` decomposed: it is the second-half run applied to the restored
state built from the first-half run applied to some set-up state `s3`
whose fields relate to `s` as the trip prologue dictates (beam off,
`old_steady_state` saved, `max_pol_rate` boosted, everything else
untouched). -/
lemma trip_decomp (R : ℕ → ℝ × Bool) (T : ℝ) (s : AState) :
    ∃ s3 : AState,
      trip R T s =
        { runSteps (fun i => R (⌈T / 2⌉₊ + i)) ⌈T / 2⌉₊
            ({ beam_on MAX_DOSE_RATE (runSteps R ⌈T / 2⌉₊ s3) with
                steadyState := (runSteps R ⌈T / 2⌉₊ s3).oldSteadyState,
                maxPolRate := (runSteps R ⌈T / 2⌉₊ s3).maxPolRate / 10 }) with
          tripping := false } ∧
      s3.doseRate = 0 ∧ s3.followFreq = s.followFreq ∧ s3.oldSteadyState = s.steadyState ∧
      s3.maxPolRate = s.maxPolRate * 10 ∧ s3.simTime = s.simTime ∧ s3.dose = s.dose ∧
      s3.freq = s.freq ∧ s3.field = s.field ∧ s3.temp = s.temp ∧
      s3.maxSteadyState = s.maxSteadyState ∧ s3.lastAnnealDose = s.lastAnnealDose ∧
      s3.nAnneals = s.nAnneals ∧ s3.randomnessOn = s.randomnessOn ∧
      s3.direction = s.direction := by
  simp only [trip, run_until, beam_off, add_sub_cancel_left]
  split_ifs with h <;>
    exact ⟨_, rfl, by simp, by simp, by simp, by simp, by simp, by simp, by simp,
      by simp, by simp, by simp, by simp, by simp, by simp⟩

/-- The simulated time advanced by a completed `trip T`: `⌈T/2⌉` steps
with the beam off and another `⌈T/2⌉` with it back on. -/
lemma trip_simTime (R : ℕ → ℝ × Bool) (T : ℝ) (s : AState) :
    (trip R T s).simTime = s.simTime + ⌈T / 2⌉₊ + ⌈T / 2⌉₊ := by
  obtain ⟨s3, he, hdr, hff, hold, hmpr, hst, hdose, hfreq, hfield, htemp, hmss, hlad,
    hann, hrand, hdir⟩ := trip_decomp R T s
  rw [he]
  simp only [runSteps_simTime, beam_on, hst]

end OldSim

namespace OldSim

lemma mul_factor_le {ss M F : ℝ} (h1 : ss ≤ M) (h2 : 0 ≤ M) (hF0 : 0 < F)
    (hF1 : F ≤ 1) : ss * F ≤ M := by
  rcases le_or_lt 0 ss with h | h
  · exact le_trans (mul_le_of_le_one_right h hF1) h1
  · exact le_trans (mul_nonpos_of_nonpos_of_nonneg h.le hF0.le) h2

lemma reset_Inv (s : AState) (h : Inv s) : Inv (reset_steady_state s) := by
  obtain ⟨h1, h2, h3, h4⟩ := h
  have hE : Real.exp (-0.4471 * (s.temp - 1)) ≤ 1 := by
    apply exp_le_one_of_nonpos
    apply mul_nonpos_of_nonpos_of_nonneg (by norm_num)
    linarith
  have hv : s.maxSteadyState * Real.exp (-0.4471 * (s.temp - 1)) ≤ s.maxSteadyState :=
    mul_le_of_le_one_right h2 hE
  refine ⟨?_, h2, h3, h4⟩
  simp only [reset_steady_state]
  split_ifs with hc
  · linarith
  · exact hv

lemma update_Inv (r : ℝ × Bool) (s : AState) (h : Inv s) : Inv (update r s) := by
  obtain ⟨h1, h2, h3, h4⟩ := h
  obtain ⟨F, hF0, hF1, hFe⟩ := update_steadyState r s h3
  have hfr := update_frame r s
  refine ⟨?_, ?_, ?_, ?_⟩
  · rw [hFe, hfr.2.2.2.1]
    exact mul_factor_le h1 h2 hF0 hF1
  · rw [hfr.2.2.2.1]; exact h2
  · rw [hfr.2.2.2.2.2.1]; exact h3
  · rw [hfr.2.1]; exact h4

lemma runSteps_Inv : ∀ (n : ℕ) (R : ℕ → ℝ × Bool) (s : AState),
    Inv s → Inv (runSteps R n s) := by
  intro n
  induction n with
  | zero => intro R s h; exact h
  | succ n ih =>
      intro R s h
      exact ih (fun i => R (i + 1)) (update (R 0) s) (update_Inv (R 0) s h)

lemma trip_Inv (R : ℕ → ℝ × Bool) (T : ℝ) (s : AState) (h : Inv s) :
    Inv (trip R T s) := by
  obtain ⟨s3, he, hdr3, hff3, hold3, hmpr3, hst3, hdose3, hfreq3, hfield3, htemp3,
    hmss3, hlad3, hann3, hrand3, hdir3⟩ := trip_decomp R T s
  rw [he]
  have hwdr : 0 ≤ ({ beam_on MAX_DOSE_RATE (runSteps R ⌈T / 2⌉₊ s3) with
      steadyState := (runSteps R ⌈T / 2⌉₊ s3).oldSteadyState,
      maxPolRate := (runSteps R ⌈T / 2⌉₊ s3).maxPolRate / 10 } : AState).doseRate := by
    norm_num [beam_on, MAX_DOSE_RATE]
  obtain ⟨F, hF0, hF1, hFe⟩ :=
    runSteps_steadyState ⌈T / 2⌉₊ (fun i => R (⌈T / 2⌉₊ + i)) _ hwdr
  refine ⟨?_, ?_, ?_, ?_⟩
  · show (runSteps (fun i => R (⌈T / 2⌉₊ + i)) ⌈T / 2⌉₊ _).steadyState ≤ _
    rw [hFe]
    simp only [beam_on, runSteps_oldSteadyState, runSteps_maxSteadyState, hold3, hmss3]
    exact mul_factor_le h.1 h.2.1 hF0 hF1
  · simp only [runSteps_maxSteadyState, beam_on, hmss3]
    exact h.2.1
  · simp only [runSteps_doseRate, beam_on]
    norm_num [MAX_DOSE_RATE]
  · simp only [runSteps_temp, beam_on, htemp3]
    exact h.2.2.2

lemma anneal_Inv (d t : ℝ) (s : AState) (h : Inv s) : Inv (anneal d t s) := by
  apply reset_Inv
  exact ⟨h.1, h.2.1, h.2.2.1, h.2.2.2⟩

end OldSim

namespace NewSim

lemma gss_congr {a b : BState} (hf : a.freq = b.freq) (hd : a.dose = b.dose)
    (hfl : a.field = b.field) : get_steady_state a = get_steady_state b := by
  unfold get_steady_state optimal_freq_pos optimal_freq_neg
  rw [hf, hd, hfl]

lemma lam_congr {a b : BState} (hf : a.freq = b.freq) (hd : a.dose = b.dose)
    (hfl : a.field = b.field) : get_lambda a = get_lambda b := by
  unfold get_lambda optimal_freq_pos optimal_freq_neg
  rw [hf, hd, hfl]

lemma update_sim_frame (s : BState) :
    (update_sim s).freq = s.freq ∧ (update_sim s).dose = s.dose ∧
    (update_sim s).field = s.field ∧ (update_sim s).aParam = s.aParam ∧
    (update_sim s).temp = s.temp ∧ (update_sim s).doseRate = s.doseRate ∧
    (update_sim s).lastAnnealDose = s.lastAnnealDose ∧
    (update_sim s).nAnneals = s.nAnneals ∧ (update_sim s).direction = s.direction := by
  refine ⟨?_, ?_, ?_, ?_, ?_, ?_, ?_, ?_, ?_⟩ <;> simp [update_sim, update_pol]

lemma update_sim_simTime (s : BState) : (update_sim s).simTime = s.simTime + 1 := by
  simp [update_sim, update_pol]

lemma iterB_freq (k : ℕ) (s : BState) : (update_sim^[k] s).freq = s.freq :=
  OldSim.iterate_proj (fun t => t.freq) (fun t => (update_sim_frame t).1) k s

lemma iterB_dose (k : ℕ) (s : BState) : (update_sim^[k] s).dose = s.dose :=
  OldSim.iterate_proj (fun t => t.dose) (fun t => (update_sim_frame t).2.1) k s

lemma iterB_field (k : ℕ) (s : BState) : (update_sim^[k] s).field = s.field :=
  OldSim.iterate_proj (fun t => t.field) (fun t => (update_sim_frame t).2.2.1) k s

lemma iterB_aParam (k : ℕ) (s : BState) : (update_sim^[k] s).aParam = s.aParam :=
  OldSim.iterate_proj (fun t => t.aParam) (fun t => (update_sim_frame t).2.2.2.1) k s

lemma iterB_simTime (k : ℕ) (s : BState) :
    (update_sim^[k] s).simTime = s.simTime + k := by
  induction k generalizing s with
  | zero => simp
  | succ k ih =>
      rw [Function.iterate_succ_apply, ih (update_sim s), update_sim_simTime]
      push_cast
      ring

/-- The closed-form polarization after `k + 1` steps:
`P = P_inf - A * exp(-lambda * t)` with the parameters frozen at the
start state (no step changes `freq`, `dose`, `field` or `a_param`). -/
lemma iter_update_sim_pol (s : BState) (k : ℕ) :
    (update_sim^[k + 1] s).pol =
      get_steady_state s - s.aParam * Real.exp (-(get_lambda s) * (s.simTime + ((k : ℝ) + 1))) := by
  rw [Function.iterate_succ_apply']
  have hfr := update_sim_frame (update_sim^[k] s)
  have hg : get_steady_state ({ update_sim^[k] s with
      simTime := (update_sim^[k] s).simTime + 1 } : BState) = get_steady_state s :=
    gss_congr (by simp [iterB_freq]) (by simp [iterB_dose]) (by simp [iterB_field])
  have hl : get_lambda ({ update_sim^[k] s with
      simTime := (update_sim^[k] s).simTime + 1 } : BState) = get_lambda s :=
    lam_congr (by simp [iterB_freq]) (by simp [iterB_dose]) (by simp [iterB_field])
  simp only [update_sim, update_pol]
  rw [hg, hl]
  simp only [iterB_aParam, iterB_simTime]
  ring_nf

lemma scenStar_freq : scenStar.freq = 140.10 := by
  simp [scenStar, stepB, set_freq, update_a_param]

lemma scenStar_dose : scenStar.dose = 0 := by
  simp [scenStar, scen1, scen0, stepB, sim_init, set_freq, update_a_param, update_pol,
    initB]

lemma scenStar_field : scenStar.field = 5.0 := by
  simp [scenStar, scen1, scen0, stepB, sim_init, set_freq, update_a_param, update_pol,
    initB]

lemma scenStar_simTime : scenStar.simTime = 0 := by
  simp [scenStar, scen1, scen0, stepB, sim_init, set_freq, update_a_param, update_pol,
    initB]

lemma scen0_pol : scen0.pol = 0 := by
  have hg : get_steady_state (update_a_param { initB with freq := initB.freq }) =
      get_steady_state { initB with freq := initB.freq } :=
    gss_congr rfl rfl rfl
  have hl : get_lambda (update_a_param { initB with freq := initB.freq }) =
      get_lambda { initB with freq := initB.freq } :=
    lam_congr rfl rfl rfl
  simp only [scen0, sim_init, set_freq, update_pol]
  rw [hg, hl]
  simp [update_a_param, initB, Real.exp_zero]

lemma scenStar_pol : scenStar.pol = 0 := by
  have h0 : scen1.pol = 0 := scen0_pol
  simp only [scenStar, stepB, set_freq, update_a_param]
  exact h0

lemma scenStar_aParam : scenStar.aParam = scenSS := by
  have h0 : scen1.pol = 0 := scen0_pol
  have ht : scen1.simTime = 0 := by
    simp [scen1, scen0, stepB, sim_init, set_freq, update_a_param, update_pol, initB]
  have hg : get_steady_state scenStar =
      get_steady_state ({ scen1 with freq := 140.10 } : BState) :=
    gss_congr (by simp [scenStar, stepB, set_freq, update_a_param])
      (by simp [scenStar, stepB, set_freq, update_a_param])
      (by simp [scenStar, stepB, set_freq, update_a_param])
  show (stepB (CmdB.freqB 140.10) scen1).1.aParam = scenSS
  unfold scenSS
  rw [hg]
  simp only [stepB, set_freq, update_a_param]
  rw [ht, h0]
  simp [Real.exp_zero]

lemma scenSS_pos : 0 < scenSS := by
  unfold scenSS get_steady_state optimal_freq_pos optimal_freq_neg
  rw [scenStar_freq, scenStar_dose, scenStar_field, sub_pos]
  apply Real.exp_lt_exp.mpr
  norm_num [Real.exp_zero]

lemma lamStar_pos : 0 < lamStar := by
  unfold lamStar get_lambda
  positivity

lemma scenPol_zero : scenPol 0 = 0 := scenStar_pol

lemma scenPol_succ (k : ℕ) :
    scenPol (k + 1) = scenSS - scenSS * Real.exp (-lamStar * ((k : ℝ) + 1)) := by
  unfold scenPol
  rw [iter_update_sim_pol scenStar k, scenStar_simTime, scenStar_aParam]
  unfold scenSS lamStar
  ring_nf

lemma runRowsB_last : ∀ (n : ℕ) (s : BState),
    (runRowsB (n + 1) s).getLast? = some (output_row_batch (update_sim^[n] s)) := by
  intro n
  induction n with
  | zero => intro s; rfl
  | succ n ih =>
      intro s
      show (output_row_batch s :: runRowsB (n + 1) (update_sim s)).getLast? = _
      rw [runRowsB]
      rw [List.getLast?_cons_cons]
      rw [← runRowsB, ih (update_sim s), ← Function.iterate_succ_apply]

end NewSim

namespace OldSim

lemma getLast?_cons_of_ne_nil {α : Type} (a : α) (l : List α) (h : l ≠ []) :
    (a :: l).getLast? = l.getLast? := by
  cases l with
  | nil => exact absurd rfl h
  | cons b t => rw [List.getLast?_cons_cons]

lemma runStepsRows_ne_nil (R : ℕ → ℝ × Bool) (n : ℕ) (s : AState) :
    runStepsRows R (n + 1) s ≠ [] := by
  show output_row s :: runStepsRows (fun i => R (i + 1)) n (update (R 0) s) ≠ []
  exact List.cons_ne_nil _ _

lemma runStepsRows_last : ∀ (n : ℕ) (R : ℕ → ℝ × Bool) (s : AState),
    (runStepsRows R (n + 1) s).getLast? = some (output_row (runSteps R n s)) := by
  intro n
  induction n with
  | zero => intro R s; rfl
  | succ n ih =>
      intro R s
      calc (runStepsRows R (n + 1 + 1) s).getLast?
          = (runStepsRows (fun i => R (i + 1)) (n + 1) (update (R 0) s)).getLast? := by
            show (output_row s ::
              runStepsRows (fun i => R (i + 1)) (n + 1) (update (R 0) s)).getLast? = _
            exact getLast?_cons_of_ne_nil _ _ (runStepsRows_ne_nil _ _ _)
        _ = some (output_row (runSteps R (n + 1) s)) :=
            ih (fun i => R (i + 1)) (update (R 0) s)

end OldSim

/-- Claim C5: for every 32-bit signed integer, decoding (`serial_rx_int32`)
the four bytes produced by encoding (`serial_tx_int32`) yields the integer
back, and likewise the four bytes of a 32-bit float's object
representation (modelled by its bit pattern) round-trip through
`serial_tx_float`/`serial_rx_float`. -/
theorem c5_codec_round_trip :
    (∀ (v : ℤ) (rest : List ℕ), -2147483648 ≤ v → v < 2147483648 →
      Serial.serial_rx_int32 (Serial.serial_tx_int32 v ++ rest) = some (v, rest)) ∧
    (∀ (p : ℕ) (rest : List ℕ), p < 4294967296 →
      Serial.serial_rx_float (Serial.serial_tx_float p ++ rest) = some (p, rest)) := by
  constructor
  · intro v rest h1 h2
    have hpos : (0:ℤ) < 4294967296 := by norm_num
    have hn0 : 0 ≤ v % 4294967296 := Int.emod_nonneg v (by norm_num)
    have hn2 : v % 4294967296 < 4294967296 := Int.emod_lt_of_pos v hpos
    simp only [Serial.serial_tx_int32, Serial.serial_rx_int32, Serial.byteOf,
      Serial.toSigned32, List.cons_append, List.nil_append, Option.some.injEq,
      Prod.mk.injEq]
    refine ⟨?_, trivial⟩
    have hp0 : (256:ℕ) ^ 0 = 1 := by norm_num
    have hp1 : (256:ℕ) ^ 1 = 256 := by norm_num
    have hp2 : (256:ℕ) ^ 2 = 65536 := by norm_num
    have hp3 : (256:ℕ) ^ 3 = 16777216 := by norm_num
    rw [hp0, hp1, hp2, hp3]
    split <;> omega
  · intro p rest hp
    simp only [Serial.serial_tx_float, Serial.serial_rx_float, Serial.byteOf,
      List.cons_append, List.nil_append, Option.some.injEq, Prod.mk.injEq]
    have hp0 : (256:ℕ) ^ 0 = 1 := by norm_num
    have hp1 : (256:ℕ) ^ 1 = 256 := by norm_num
    have hp2 : (256:ℕ) ^ 2 = 65536 := by norm_num
    have hp3 : (256:ℕ) ^ 3 = 16777216 := by norm_num
    rw [hp0, hp1, hp2, hp3]
    exact ⟨by omega, trivial⟩

/-- Witness for C5 at concrete inputs: the integer `-5` and the float bit
pattern `0x41700000` (`15.0f`) round-trip. -/
theorem c5_codec_round_trip_witness :
    Serial.serial_rx_int32 (Serial.serial_tx_int32 (-5) ++ [9]) = some (-5, [9]) ∧
    Serial.serial_rx_float (Serial.serial_tx_float 1097859072 ++ []) =
      some (1097859072, []) :=
  ⟨c5_codec_round_trip.1 (-5) [9] (by norm_num) (by norm_num),
   c5_codec_round_trip.2 1097859072 [] (by norm_num)⟩

/-- Claim C2 (amended): a completed `anneal(duration, temperature)` call
leaves `last_anneal_dose == dose` and the polarization equal to its value
immediately before the call, but leaves `n_anneals` unchanged — the
program never increments its anneal counter. -/
theorem c2_anneal_bookkeeping (d t : ℝ) (s : OldSim.AState) :
    (OldSim.anneal d t s).lastAnnealDose = (OldSim.anneal d t s).dose ∧
    (OldSim.anneal d t s).pol = s.pol ∧
    (OldSim.anneal d t s).nAnneals = s.nAnneals := by
  refine ⟨?_, ?_, ?_⟩ <;> simp [OldSim.anneal, OldSim.reset_steady_state]

/-- Counterexample for C2 as stated: after `annl 5 80` from the initial
state the anneal counter has not increased by 1 (it is still 0). -/
theorem c2_counterexample :
    (OldSim.anneal 5 80 OldSim.initState).nAnneals ≠ OldSim.initState.nAnneals + 1 := by
  simp [OldSim.anneal, OldSim.reset_steady_state, OldSim.initState]

/-- Claim C10: the `temperature` argument of `anneal` has no effect: the
C parameter shadows the global `temp` and the body only increments the
local copy, so two anneals differing only in that argument produce
identical states. -/
theorem c10_anneal_temp_unused (d t1 t2 : ℝ) (s : OldSim.AState) :
    OldSim.anneal d t1 s = OldSim.anneal d t2 s := rfl

/-- Claim C6: across any run of simulation steps, `dose` is non-decreasing
whenever the dose rate is non-negative (in particular while the beam is
continuously on, when `dose_rate = MAX_DOSE_RATE`), and is unchanged
while the beam is off (`dose_rate = 0`). -/
theorem c6_dose_monotone (R : ℕ → ℝ × Bool) (n : ℕ) (s : OldSim.AState) :
    (0 ≤ s.doseRate → s.dose ≤ (OldSim.runSteps R n s).dose) ∧
    (s.doseRate = 0 → (OldSim.runSteps R n s).dose = s.dose) := by
  constructor
  · intro h
    rw [OldSim.runSteps_dose]
    have : 0 ≤ (n : ℝ) * s.doseRate := by positivity
    linarith
  · intro h
    rw [OldSim.runSteps_dose, h]
    ring

/-- Witness for C6: three steps from the initial state (beam off). -/
theorem c6_dose_monotone_witness :
    OldSim.initState.dose ≤ (OldSim.runSteps OldSim.R0 3 OldSim.initState).dose ∧
    (OldSim.runSteps OldSim.R0 3 OldSim.initState).dose = OldSim.initState.dose :=
  ⟨(c6_dose_monotone OldSim.R0 3 OldSim.initState).1 (by norm_num [OldSim.initState]),
   (c6_dose_monotone OldSim.R0 3 OldSim.initState).2 (by norm_num [OldSim.initState])⟩

/-- Claim C1 (amended): after a completed `trip T` with `T` an even number
of 1 s steps, `max_pol_rate` equals its pre-trip value, `time` has
advanced by exactly `T`, `dose` has advanced by `MAX_DOSE_RATE * T/2`
(beam off during the first half, on during the second), `dose_rate` ends
at `MAX_DOSE_RATE` regardless of its pre-trip value, `tripping` ends
false, `steady_state` ends at most its pre-trip value (it is restored and
then decays with the dose deposited during the beam-on half, rather than
being exactly restored), and the remaining engine parameters (`freq` with
frequency-following off, `field`, `temp`, `max_steady_state`,
`last_anneal_dose`, `n_anneals`, randomness, `follow_freq`, `direction`)
keep their pre-trip values; `pol`, `pol_rate` and `k_val` evolve with the
model. -/
theorem c1_trip_frame_amended (R : ℕ → ℝ × Bool) (T : ℝ) (m : ℕ) (s : OldSim.AState)
    (hT : T = 2 * m) (hf : s.followFreq = false) (hss : 0 ≤ s.steadyState) :
    (OldSim.trip R T s).maxPolRate = s.maxPolRate ∧
    (OldSim.trip R T s).simTime = s.simTime + T ∧
    (OldSim.trip R T s).dose = s.dose + OldSim.MAX_DOSE_RATE * (T / 2) ∧
    (OldSim.trip R T s).doseRate = OldSim.MAX_DOSE_RATE ∧
    (OldSim.trip R T s).tripping = false ∧
    (OldSim.trip R T s).steadyState ≤ s.steadyState ∧
    (OldSim.trip R T s).freq = s.freq ∧
    (OldSim.trip R T s).field = s.field ∧
    (OldSim.trip R T s).temp = s.temp ∧
    (OldSim.trip R T s).maxSteadyState = s.maxSteadyState ∧
    (OldSim.trip R T s).lastAnnealDose = s.lastAnnealDose ∧
    (OldSim.trip R T s).nAnneals = s.nAnneals ∧
    (OldSim.trip R T s).randomnessOn = s.randomnessOn ∧
    (OldSim.trip R T s).followFreq = s.followFreq ∧
    (OldSim.trip R T s).direction = s.direction := by
  obtain ⟨s3, he, hdr, hff, hold, hmpr, hst, hdose, hfreq, hfield, htemp, hmss, hlad,
    hann, hrand, hdir⟩ := OldSim.trip_decomp R T s
  have hn : ⌈T / 2⌉₊ = m := by
    have h2 : T / 2 = (m : ℝ) := by rw [hT]; ring
    rw [h2, Nat.ceil_natCast]
  rw [he, hn]
  refine ⟨?_, ?_, ?_, ?_, ?_, ?_, ?_, ?_, ?_, ?_, ?_, ?_, ?_, ?_, ?_⟩
  · simp only [OldSim.runSteps_maxPolRate, OldSim.beam_on, hmpr]
    ring
  · simp only [OldSim.runSteps_simTime, OldSim.beam_on, hst, hT]
    ring
  · simp only [OldSim.runSteps_dose, OldSim.runSteps_doseRate, OldSim.beam_on,
      hdose, hdr, hT]
    ring
  · simp only [OldSim.runSteps_doseRate, OldSim.beam_on]
  · rfl
  · have hwdr : 0 ≤ ({ OldSim.beam_on OldSim.MAX_DOSE_RATE (OldSim.runSteps R m s3) with
        steadyState := (OldSim.runSteps R m s3).oldSteadyState,
        maxPolRate := (OldSim.runSteps R m s3).maxPolRate / 10 } : OldSim.AState).doseRate := by
      norm_num [OldSim.beam_on, OldSim.MAX_DOSE_RATE]
    obtain ⟨F, hF0, hF1, hFe⟩ :=
      OldSim.runSteps_steadyState m (fun i => R (m + i)) _ hwdr
    show (OldSim.runSteps (fun i => R (m + i)) m _).steadyState ≤ s.steadyState
    rw [hFe]
    simp only [OldSim.beam_on, OldSim.runSteps_oldSteadyState, hold]
    exact mul_le_of_le_one_right hss hF1
  · simp only [OldSim.runSteps_freq, OldSim.runSteps_followFreq, OldSim.beam_on,
      hff, hf, hfreq]
  · simp only [OldSim.runSteps_field, OldSim.beam_on, hfield]
  · simp only [OldSim.runSteps_temp, OldSim.beam_on, htemp]
  · simp only [OldSim.runSteps_maxSteadyState, OldSim.beam_on, hmss]
  · simp only [OldSim.runSteps_lastAnnealDose, OldSim.beam_on, hlad]
  · simp only [OldSim.runSteps_nAnneals, OldSim.beam_on, hann]
  · simp only [OldSim.runSteps_randomnessOn, OldSim.beam_on, hrand]
  · simp only [OldSim.runSteps_followFreq, OldSim.beam_on, hff]
  · simp only [OldSim.runSteps_direction, OldSim.beam_on, hdir]

/-- Counterexample for C1 as stated: from the initial state (beam off,
`dose_rate = 0`), a completed `trip 2` leaves `dose_rate = MAX_DOSE_RATE`,
not its pre-trip value — the trip turns the beam on unconditionally for
its second half and never restores the pre-trip beam state. -/
theorem c1_counterexample :
    (OldSim.trip OldSim.R0 2 OldSim.initState).doseRate ≠ OldSim.initState.doseRate := by
  obtain ⟨s3, he, _⟩ := OldSim.trip_decomp OldSim.R0 2 OldSim.initState
  rw [he]
  simp only [OldSim.runSteps_doseRate, OldSim.beam_on]
  norm_num [OldSim.MAX_DOSE_RATE, OldSim.initState]

/-- Witness for C1 (amended) at `T = 2`, `m = 1`, the initial state. -/
theorem c1_trip_frame_amended_witness :
    (2:ℝ) = 2 * (1:ℕ) ∧ OldSim.initState.followFreq = false ∧
    0 ≤ OldSim.initState.steadyState ∧
    (OldSim.trip OldSim.R0 2 OldSim.initState).maxPolRate =
      OldSim.initState.maxPolRate := by
  refine ⟨by norm_num, rfl, by norm_num [OldSim.initState], ?_⟩
  exact (c1_trip_frame_amended OldSim.R0 2 1 OldSim.initState (by norm_num) rfl
    (by norm_num [OldSim.initState])).1

/-- Claim C3 (amended): the invariant `steady_state ≤ max_steady_state`
is preserved by every engine operation — `temp`, `sdst`, `mfld`, `freq`,
`beam`, `time`, `trip`, `annl` and every simulation step — provided the
ceiling stays non-negative, the dose rate stays non-negative, and every
temperature in force at a steady-state reset is at least 1 K (`temp` set
below 1 K breaks the bound, see the counterexample). -/
theorem c3_steady_state_bound (R : ℕ → ℝ × Bool) (op : OldSim.Op) (s : OldSim.AState)
    (h : OldSim.Inv s) (hop : OldSim.OpOK op) : OldSim.Inv (OldSim.applyOp R op s) := by
  cases op with
  | tempSet v =>
      apply OldSim.reset_Inv
      exact ⟨h.1, h.2.1, h.2.2.1, hop⟩
  | sdstSet v => exact ⟨le_refl v, hop, h.2.2.1, h.2.2.2⟩
  | mfldSet v => exact h
  | freqSet v => exact h
  | beamSet b =>
      cases b
      · exact ⟨h.1, h.2.1, le_refl 0, h.2.2.2⟩
      · exact ⟨h.1, h.2.1,
          by norm_num [OldSim.applyOp, OldSim.beam_on, OldSim.MAX_DOSE_RATE], h.2.2.2⟩
  | timeRun t => exact OldSim.runSteps_Inv _ _ _ h
  | tripRun t => exact OldSim.trip_Inv R t s h
  | annealRun d t => exact OldSim.anneal_Inv d t s h
  | stepRun r => exact OldSim.update_Inv r s h

/-- Counterexample for C3 as stated: the in-init command `temp 0.5` (a
legal temperature setting) drives `steady_state` to the 1.0 clamp, above
`max_steady_state = 0.95`. -/
theorem c3_counterexample :
    ¬ ((OldSim.applyOp OldSim.R0 (OldSim.Op.tempSet 0.5) OldSim.initState).steadyState ≤
       (OldSim.applyOp OldSim.R0 (OldSim.Op.tempSet 0.5) OldSim.initState).maxSteadyState) := by
  have key : (0.95:ℝ) * Real.exp (-0.4471 * (0.5 - 1)) > 1.0 := by
    have h1 : (-0.4471:ℝ) * (0.5 - 1) = 0.22355 := by norm_num
    have h2 : (0.22355:ℝ) + 1 < Real.exp 0.22355 :=
      Real.add_one_lt_exp (by norm_num)
    rw [gt_iff_lt, h1]
    nlinarith
  simp only [OldSim.applyOp, OldSim.reset_steady_state, OldSim.initState]
  rw [not_le]
  split_ifs with hc
  · norm_num

/-- Witness for C3 (amended): `beam on` from the initial state preserves
the invariant. -/
theorem c3_steady_state_bound_witness :
    OldSim.Inv OldSim.initState ∧
    OldSim.Inv (OldSim.applyOp OldSim.R0 (OldSim.Op.beamSet true) OldSim.initState) := by
  have h0 : OldSim.Inv OldSim.initState := by
    refine ⟨?_, ?_, ?_, ?_⟩ <;> norm_num [OldSim.initState]
  exact ⟨h0, c3_steady_state_bound OldSim.R0 (OldSim.Op.beamSet true) OldSim.initState
    h0 trivial⟩

/-- Claim C4 (amended): inside an open init block, `time` is rejected as
an invalid command with no simulation action, but `trip` is *not*
guarded: the `trip` branch of `main` has no `in_init` check and performs
the full beam trip even inside an init block. -/
theorem c4_time_trip_in_init (R : ℕ → ℝ × Bool) (i : OldSim.IState) (s : OldSim.AState)
    (v T : ℝ) (rel : Bool) (h : i.inInit = true) :
    OldSim.step R i s (OldSim.Cmd.timeCmd v rel) = OldSim.Outcome.invalidCmd ("time") i s ∧
    OldSim.step R i s (OldSim.Cmd.tripCmd T) =
      OldSim.Outcome.next i (OldSim.trip R T s) := by
  constructor
  · simp [OldSim.step, h]
  · rfl

/-- Counterexample for C4 as stated: with an open init block, `trip 2`
is executed rather than reported invalid — from the initial state it
returns a `next` outcome whose simulation time has advanced to 2. -/
theorem c4_counterexample :
    OldSim.step OldSim.R0 ⟨true, false⟩ OldSim.initState (OldSim.Cmd.tripCmd 2) =
      OldSim.Outcome.next ⟨true, false⟩ (OldSim.trip OldSim.R0 2 OldSim.initState) ∧
    (OldSim.trip OldSim.R0 2 OldSim.initState).simTime = 2 := by
  constructor
  · rfl
  · rw [OldSim.trip_simTime]
    have h1 : (2:ℝ) / 2 = 1 := by norm_num
    rw [h1, Nat.ceil_one]
    norm_num [OldSim.initState]

/-- Witness for C4 (amended) inside an open init block. -/
theorem c4_time_trip_in_init_witness :
    OldSim.step OldSim.R0 ⟨true, false⟩ OldSim.initState (OldSim.Cmd.timeCmd 7 false) =
      OldSim.Outcome.invalidCmd ("time") ⟨true, false⟩ OldSim.initState ∧
    OldSim.step OldSim.R0 ⟨true, false⟩ OldSim.initState (OldSim.Cmd.tripCmd 3) =
      OldSim.Outcome.next ⟨true, false⟩ (OldSim.trip OldSim.R0 3 OldSim.initState) :=
  ⟨(c4_time_trip_in_init OldSim.R0 ⟨true, false⟩ OldSim.initState 7 3 false rfl).1,
   (c4_time_trip_in_init OldSim.R0 ⟨true, false⟩ OldSim.initState 7 3 false rfl).2⟩

/-- Claim C9: once an init block has completed (`did_init` true), another
`init` is fatal: the run aborts with exit code 1 (non-zero).  Each
init-only command (`rand`, `mfld`, `sdst`) issued outside an init block
is reported as invalid with a diagnostic naming that command, and both
interpreter and simulation state are returned unchanged. -/
theorem c9_init_guard (R : ℕ → ℝ × Bool) (i : OldSim.IState) (s : OldSim.AState)
    (a : String) (v w : ℝ) :
    (1:ℕ) ≠ 0 ∧
    (i.didInit = true → OldSim.step R i s OldSim.Cmd.initCmd = OldSim.Outcome.fatal 1) ∧
    (i.inInit = false →
      OldSim.step R i s (OldSim.Cmd.randCmd a) = OldSim.Outcome.invalidCmd ("rand") i s ∧
      OldSim.step R i s (OldSim.Cmd.mfldCmd v) = OldSim.Outcome.invalidCmd ("mfld") i s ∧
      OldSim.step R i s (OldSim.Cmd.sdstCmd w) = OldSim.Outcome.invalidCmd ("sdst") i s) := by
  refine ⟨by norm_num, ?_, ?_⟩
  · intro h
    simp [OldSim.step, h]
  · intro h
    refine ⟨?_, ?_, ?_⟩ <;> simp [OldSim.step, h]

/-- Witness for C9: after a completed init block (`did_init = true`,
outside any block), a second `init` is fatal and `rand`/`mfld`/`sdst`
are invalid. -/
theorem c9_init_guard_witness :
    OldSim.step OldSim.R0 ⟨false, true⟩ OldSim.initState OldSim.Cmd.initCmd =
      OldSim.Outcome.fatal 1 ∧
    OldSim.step OldSim.R0 ⟨false, true⟩ OldSim.initState (OldSim.Cmd.randCmd ("on")) =
      OldSim.Outcome.invalidCmd ("rand") ⟨false, true⟩ OldSim.initState ∧
    OldSim.step OldSim.R0 ⟨false, true⟩ OldSim.initState (OldSim.Cmd.mfldCmd 3) =
      OldSim.Outcome.invalidCmd ("mfld") ⟨false, true⟩ OldSim.initState ∧
    OldSim.step OldSim.R0 ⟨false, true⟩ OldSim.initState (OldSim.Cmd.sdstCmd 4) =
      OldSim.Outcome.invalidCmd ("sdst") ⟨false, true⟩ OldSim.initState :=
  ⟨(c9_init_guard OldSim.R0 ⟨false, true⟩ OldSim.initState ("on") 3 4).2.1 rfl,
   (c9_init_guard OldSim.R0 ⟨false, true⟩ OldSim.initState ("on") 3 4).2.2 rfl⟩

/-- Claim C8: in both protocol dispatchers (`old_sim.c` and `sim.c`), a
telemetry row is written exactly when the control byte 0x88 (motor
direction) is dispatched: every other control byte produces no row, and
dispatching 0x88 reads the 4-byte direction and immediately emits one
row snapshotting the state with the fresh direction. -/
theorem c8_row_exactly_on_direction (fdec : ℕ → ℝ) (c : ℕ) (input : List ℕ)
    (s : OldSim.AState) (t : NewSim.BState) :
    (c ≠ 0x88 → ∀ s2 rest rows,
      OldSim.process_one fdec c input s = some (s2, rest, rows) → rows = []) ∧
    (∀ b1 b2 b3 b4 rest,
      OldSim.process_one fdec 0x88 (b1 :: b2 :: b3 :: b4 :: rest) s =
        some ({ s with direction := (Serial.toSigned32 (b4 + 256 * b3 + 65536 * b2 + 16777216 * b1) : ℝ) },
          rest,
          [OldSim.output_row { s with direction := (Serial.toSigned32 (b4 + 256 * b3 + 65536 * b2 + 16777216 * b1) : ℝ) }])) ∧
    (c ≠ 0x88 → ∀ t2 rest rows,
      NewSim.process_one fdec c input t = some (t2, rest, rows) → rows = []) ∧
    (∀ b1 b2 b3 b4 rest,
      NewSim.process_one fdec 0x88 (b1 :: b2 :: b3 :: b4 :: rest) t =
        some ({ t with direction := Serial.toSigned32 (b4 + 256 * b3 + 65536 * b2 + 16777216 * b1) },
          rest,
          [NewSim.output_row_serial { t with direction := Serial.toSigned32 (b4 + 256 * b3 + 65536 * b2 + 16777216 * b1) }])) := by
  refine ⟨?_, ?_, ?_, ?_⟩
  · intro hc s2 rest rows hres
    unfold OldSim.process_one at hres
    split_ifs at hres with h1 h2 h3 h4 h5 h6
    · split at hres <;> simp_all
    · simp_all
    · simp_all
    · split at hres <;> simp_all
    · simp_all
    · simp_all
  · intro b1 b2 b3 b4 rest
    norm_num [OldSim.process_one, Serial.serial_rx_int32]
  · intro hc t2 rest rows hres
    unfold NewSim.process_one at hres
    split_ifs at hres with h1 h2 h3 h4 h5 h6 h7
    · split at hres <;> simp_all
    · simp_all
    · simp_all
    · split at hres <;> simp_all
    · split at hres <;> simp_all
    · simp_all
    · simp_all
  · intro b1 b2 b3 b4 rest
    norm_num [NewSim.process_one, Serial.serial_rx_int32]

/-- Witness for C8: the handshake byte 0x33 produces no row; 0x88 with
direction bytes `0 0 0 7` produces exactly one row carrying direction 7,
in both dispatchers. -/
theorem c8_row_exactly_on_direction_witness :
    (([] : List OldSim.RowA) = []) ∧ (([] : List NewSim.RowB) = []) ∧
    OldSim.process_one (fun _ => 0) 0x88 [0, 0, 0, 7] OldSim.initState =
      some ({ OldSim.initState with direction := ((7 : ℤ) : ℝ) }, [],
        [OldSim.output_row { OldSim.initState with direction := ((7 : ℤ) : ℝ) }]) ∧
    NewSim.process_one (fun _ => 0) 0x88 [0, 0, 0, 7] NewSim.initB =
      some ({ NewSim.initB with direction := (7 : ℤ) }, [],
        [NewSim.output_row_serial { NewSim.initB with direction := (7 : ℤ) }]) := by
  have h := c8_row_exactly_on_direction (fun _ => 0) 0x33 [] OldSim.initState NewSim.initB
  have hsv : Serial.toSigned32 (7 + 256 * 0 + 65536 * 0 + 16777216 * 0) = (7 : ℤ) := by
    norm_num [Serial.toSigned32]
  refine ⟨?_, ?_, ?_, ?_⟩
  · exact h.1 (by norm_num) OldSim.initState [] []
      (by norm_num [OldSim.process_one])
  · exact h.2.2.1 (by norm_num) NewSim.initB [] []
      (by norm_num [NewSim.process_one])
  · have h2 := h.2.1 0 0 0 7 []
    rw [hsv] at h2
    exact h2
  · have h2 := h.2.2.2 0 0 0 7 []
    rw [hsv] at h2
    exact h2

/-- Claim C7 (amended, Model B simulator of `sim.c`): for the script
`["temp 1.0", "freq 140.10", "time 100"]` run in batch mode (no beam, no
randomness in this model), the polarization is strictly increasing at
every step and always strictly below the model's steady state for that
frequency (so it trends monotonically toward it), and the final
telemetry row written by `time 100` carries time field 100. -/
theorem c7_scenario_model_b :
    NewSim.scenRows.getLast?.map NewSim.RowB.time = some 100 ∧
    (∀ k : ℕ, NewSim.scenPol k < NewSim.scenPol (k + 1)) ∧
    (∀ k : ℕ, NewSim.scenPol k < NewSim.scenSS) := by
  refine ⟨?_, ?_, ?_⟩
  · have hsteps : NewSim.stepsB 100 NewSim.scenStar = 101 := by
      rw [NewSim.stepsB, NewSim.scenStar_simTime]
      norm_num
    have h : NewSim.scenRows =
        NewSim.runRowsB (NewSim.stepsB 100 NewSim.scenStar) NewSim.scenStar := rfl
    rw [h, hsteps]
    rw [show (101 : ℕ) = 100 + 1 from rfl, NewSim.runRowsB_last 100 NewSim.scenStar]
    show some ((NewSim.update_sim^[100] NewSim.scenStar).simTime) = some 100
    rw [NewSim.iterB_simTime, NewSim.scenStar_simTime]
    norm_num
  · intro k
    cases k with
    | zero =>
        rw [NewSim.scenPol_zero, NewSim.scenPol_succ 0]
        push_cast
        have he : Real.exp (-NewSim.lamStar * (0 + 1)) < 1 :=
          Real.exp_lt_one_iff.mpr (by nlinarith [NewSim.lamStar_pos])
        nlinarith [NewSim.scenSS_pos, Real.exp_pos (-NewSim.lamStar * ((0 : ℝ) + 1))]
    | succ k =>
        rw [NewSim.scenPol_succ k, NewSim.scenPol_succ (k + 1)]
        have he : Real.exp (-NewSim.lamStar * (((k : ℕ) + 1 : ℝ) + 1)) <
            Real.exp (-NewSim.lamStar * ((k : ℝ) + 1)) := by
          apply Real.exp_lt_exp.mpr
          nlinarith [NewSim.lamStar_pos]
        push_cast at he ⊢
        nlinarith [NewSim.scenSS_pos, he]
  · intro k
    cases k with
    | zero => rw [NewSim.scenPol_zero]; exact NewSim.scenSS_pos
    | succ k =>
        rw [NewSim.scenPol_succ k]
        have h1 : 0 < NewSim.scenSS * Real.exp (-NewSim.lamStar * ((k : ℝ) + 1)) :=
          mul_pos NewSim.scenSS_pos (Real.exp_pos _)
        linarith

/-- Counterexample for C7 as stated against the legacy simulator
(`old_sim.c`): its batch `run_until` loop runs `while (sim_time <
new_time)` and emits each row before advancing, so for the same script
the final telemetry row of `time 100` carries time field 99, not 100. -/
theorem c7_counterexample :
    (OldSim.run_until_rows OldSim.R0 100 OldSim.scenA).getLast?.map OldSim.RowA.time =
      some 99 ∧
    (OldSim.run_until_rows OldSim.R0 100 OldSim.scenA).getLast?.map OldSim.RowA.time ≠
      some 100 := by
  have hn : ⌈(100 : ℝ) - OldSim.scenA.simTime⌉₊ = 100 := by
    have hs : OldSim.scenA.simTime = 0 := rfl
    rw [hs]
    norm_num
  have hmain : (OldSim.run_until_rows OldSim.R0 100 OldSim.scenA).getLast?.map
      OldSim.RowA.time = some 99 := by
    rw [OldSim.run_until_rows, hn,
      show (100 : ℕ) = 99 + 1 from rfl,
      OldSim.runStepsRows_last 99 OldSim.R0 OldSim.scenA]
    show some ((OldSim.runSteps OldSim.R0 99 OldSim.scenA).simTime) = some 99
    rw [OldSim.runSteps_simTime]
    have hs : OldSim.scenA.simTime = 0 := rfl
    rw [hs]
    norm_num
  refine ⟨hmain, ?_⟩
  rw [hmain]
  intro hcontra
  have : (99 : ℝ) = 100 := Option.some.inj hcontra
  norm_num at this
